import Mathlib

/-!
Verification of the Spaces extension's session-management core.

The definitions below are a shallow embedding of the JavaScript source:

* `cleanUrl`, `generateSessionHash`, `addUrlToSessionHistory`,
  `matchSessionToWindow`, `saveNewSession`, `handleWindowRemoved`,
  `deleteSession` follow `src/js/background/spacesService.js`
  (the current, promise-based version of the file);
* `fetchSessionByName`, `updateSession`, `removeSession` follow the
  current `dbService` implementation;
* `handleUpdateSessionName`, `requestAllSpaces` and `spaceDateCompare`
  follow `background.js`.

JavaScript strings are modeled as their UTF-16 code-unit sequences
(`JsStr := List Nat`); machine integers appear as `Int` with explicit
two's-complement truncation (`toInt32`).  Stateful methods are modeled
as explicit state passing over `EngineState`; the in-memory session
array entries carry an artificial `key` field standing for JavaScript
object identity.  Database writes issued via `_updateSessionSync` are
additionally appended to a `writes` log so that "the session was
persisted" is an inspectable fact of the final state.
-/

set_option maxRecDepth 16384

/-- A JavaScript string: its sequence of UTF-16 code units. -/
abbrev JsStr := List Nat

/-- Code units of a string literal.  All literals appearing in the source
are ASCII, for which Unicode code points and UTF-16 code units agree. -/
def strCodes (s : String) : JsStr := s.data.map Char.toNat

/-- JavaScript `String.prototype.indexOf`: the first index at which `sub`
occurs inside `s`, or `-1` when there is no occurrence. -/
def jsIndexOf (s sub : JsStr) : Int :=
  match (List.range (s.length + 1)).find? (fun i => sub.isPrefixOf (s.drop i)) with
  | some i => (i : Int)
  | none => -1

/-- Truncation of an integer to a signed 32-bit two's-complement value,
the effect of JavaScript `| 0`. -/
def toInt32 (n : Int) : Int := (n + 2 ^ 31) % 2 ^ 32 - 2 ^ 31

/-- The `cleanUrl` helper of `spacesService.js` (lines 1143-1182).  The
running extension's id (`chrome.runtime.id`) is passed explicitly as
`extensionId`.  `substring` and `indexOf` act on code units, as in JS. -/
def cleanUrl (extensionId : JsStr) (url : JsStr) : JsStr :=
  -- if (!url) return ''  (the empty string is the only falsy JsStr value)
  if url = [] then []
  -- ignore urls from this extension: url.indexOf(chrome.runtime.id) >= 0
  else if 0 ≤ jsIndexOf url extensionId then []
  -- ignore new tab pages: url.indexOf('chrome:// newtab/') >= 0
  else if 0 ≤ jsIndexOf url (strCodes "chrome:// newtab/") then []
  else
    -- add support for 'The Great Suspender':
    -- processedUrl.substring(processedUrl.indexOf('uri=') + 4, processedUrl.length)
    let processedUrl :=
      if 0 < jsIndexOf url (strCodes "suspended.html") ∧ 0 < jsIndexOf url (strCodes "uri=") then
        url.drop ((jsIndexOf url (strCodes "uri=")).toNat + 4)
      else url
    -- remove any text after a '#' symbol: substring(0, indexOf('#'))
    let processedUrl2 :=
      if 0 < jsIndexOf processedUrl (strCodes "#") then
        processedUrl.take (jsIndexOf processedUrl (strCodes "#")).toNat
      else processedUrl
    -- remove any text after a '?' symbol: substring(0, indexOf('?'))
    let processedUrl3 :=
      if 0 < jsIndexOf processedUrl2 (strCodes "?") then
        processedUrl2.take (jsIndexOf processedUrl2 (strCodes "?")).toNat
      else processedUrl2
    processedUrl3

/-- A browser tab.  The session code reads only its `url` field (a tab
with no url behaves as the empty string, which `cleanUrl` maps to ""). -/
structure Tab where
  url : JsStr
deriving DecidableEq

/-- One step of the hash loop in `generateSessionHash`:
`hash = (hash << 5) - hash + chr; hash |= 0`.  The JS `<<` operator
itself wraps its result to a signed 32-bit integer, hence the inner
`toInt32`. -/
def jsHashStep (hash : Int) (chr : Nat) : Int :=
  toInt32 (toInt32 (hash * 32) - hash + chr)

/-- The `generateSessionHash` helper of `spacesService.js`
(lines 1228-1243). -/
def generateSessionHash (extensionId : JsStr) (tabs : List Tab) : Nat :=
  let text := tabs.foldl (fun prevStr tab => prevStr ++ cleanUrl extensionId tab.url) []
  if text.length = 0 then 0
  else (text.foldl jsHashStep 0).natAbs

/-- The concatenation of the cleaned tab urls, named for use in
specification statements (definitionally the `reduce` inside
`generateSessionHash`). -/
def sessionText (extensionId : JsStr) (tabs : List Tab) : JsStr :=
  tabs.foldl (fun prevStr tab => prevStr ++ cleanUrl extensionId tab.url) []

/-- Modelled from the spec: the djb2-variant recurrence
`h ← ((h << 5) − h) + c`, truncated to a signed 32-bit two's-complement
register once after each step.  Used to compare the source's hash loop
(with its extra wrap inside `<<`) against the spec's wording. -/
def specHashStep (h : Int) (c : Nat) : Int := toInt32 (h * 32 - h + c)

-- Sanity checks of the string model.
example : strCodes "ab" = [97, 98] := by decide
example : jsIndexOf (strCodes "abcab") (strCodes "ab") = 0 := by decide
example : jsIndexOf (strCodes "abcab") (strCodes "ca") = 2 := by decide
example : jsIndexOf (strCodes "abc") (strCodes "x") = -1 := by decide
example : jsIndexOf (strCodes "abc") [] = 0 := by decide

-- Sanity checks of cleanUrl on the repository's own test vectors.
example :
    cleanUrl (strCodes "test-extension-id-12345")
      (strCodes "https://example.com/page?param=value#section")
      = strCodes "https://example.com/page" := by decide
example :
    cleanUrl (strCodes "test-extension-id-12345")
      (strCodes "chrome-extension://klbibkeccnjlkjkiokjodocebajanakg/suspended.html#ttl=test&pos=0&uri=https://example.com/page")
      = strCodes "https://example.com/page" := by decide

theorem toInt32_emod (a b : Int) : toInt32 (toInt32 a + b) = toInt32 (a + b) := by
  unfold toInt32
  omega

theorem jsHashStep_eq_specHashStep : jsHashStep = specHashStep := by
  funext h c
  show toInt32 (toInt32 (h * 32) - h + c) = toInt32 (h * 32 - h + c)
  have h1 : toInt32 (h * 32) - h + (c : Int) = toInt32 (h * 32) + (-h + c) := by ring
  have h2 : h * 32 - h + (c : Int) = h * 32 + (-h + c) := by ring
  rw [h1, h2, toInt32_emod]

/-- The branch conditions of `cleanUrl` all being false, the url comes
back verbatim. -/
theorem cleanUrl_eq_self (extId url : JsStr) (h0 : url ≠ [])
    (h1 : ¬ 0 ≤ jsIndexOf url extId)
    (h2 : ¬ 0 ≤ jsIndexOf url (strCodes "chrome:// newtab/"))
    (h3 : ¬ (0 < jsIndexOf url (strCodes "suspended.html") ∧
             0 < jsIndexOf url (strCodes "uri=")))
    (h4 : ¬ 0 < jsIndexOf url (strCodes "#"))
    (h5 : ¬ 0 < jsIndexOf url (strCodes "?")) :
    cleanUrl extId url = url := by
  unfold cleanUrl
  simp only [if_neg h0, if_neg h1, if_neg h2, if_neg h3, if_neg h4, if_neg h5]

/-- C1: `generateSessionHash` concatenates the cleaned url of every tab in
order, folds the UTF-16 code units of the concatenation with the
recurrence `h ← ((h << 5) − h) + c` truncated to a signed 32-bit
two's-complement register after each step, and returns the absolute value
of the final register; the empty concatenation yields 0, and for the
single tab `{url: "https://example.com"}` (the extension id not occurring
in that url) the result is 632849614. -/
theorem generateSessionHash_correct :
    (∀ extId tabs, generateSessionHash extId tabs
        = ((sessionText extId tabs).foldl specHashStep 0).natAbs)
    ∧ (∀ extId tabs, sessionText extId tabs = [] →
        generateSessionHash extId tabs = 0)
    ∧ (∀ extId, jsIndexOf (strCodes "https://example.com") extId = -1 →
        generateSessionHash extId [⟨strCodes "https://example.com"⟩] = 632849614) :=
  by
  refine ⟨?_, ?_, ?_⟩
  · intro extId tabs
    unfold generateSessionHash
    rw [jsHashStep_eq_specHashStep]
    by_cases h : (sessionText extId tabs).length = 0
    · rw [List.length_eq_zero] at h
      simp [sessionText] at h
      simp [sessionText, h]
    · simp only [sessionText]
      simp only [sessionText] at h
      simp [h]
  · intro extId tabs h
    unfold generateSessionHash
    simp only [sessionText] at h
    simp [h]
  · intro extId h
    have hclean : cleanUrl extId (strCodes "https://example.com")
        = strCodes "https://example.com" := by
      apply cleanUrl_eq_self
      · decide
      · rw [h]; decide
      · decide
      · decide
      · decide
      · decide
    unfold generateSessionHash
    rw [List.foldl_cons, List.foldl_nil, List.nil_append, hclean]
    decide

/-- Closed-form witness for the hypotheses of `generateSessionHash_correct`:
with the concrete extension id used by the repository's tests, the hash of
`[{url: "https://example.com"}]` is 632849614. -/
theorem generateSessionHash_correct_witness :
    jsIndexOf (strCodes "https://example.com") (strCodes "test-extension-id-12345") = -1
    ∧ generateSessionHash (strCodes "test-extension-id-12345")
        [⟨strCodes "https://example.com"⟩] = 632849614 :=
  ⟨by decide, generateSessionHash_correct.2.2 (strCodes "test-extension-id-12345") (by decide)⟩

/-- C7: `cleanUrl` filters only the literal string "chrome:// newtab/"
with its embedded space: that string is mapped to "", while the real
new-tab url "chrome://newtab/" (no space) is returned unchanged whenever
the extension id does not occur in it. -/
theorem cleanUrl_newtab :
    (∀ extId, cleanUrl extId (strCodes "chrome:// newtab/") = [])
    ∧ (∀ extId, jsIndexOf (strCodes "chrome://newtab/") extId = -1 →
        cleanUrl extId (strCodes "chrome://newtab/") = strCodes "chrome://newtab/") :=
  by
  constructor
  · intro extId
    unfold cleanUrl
    rw [if_neg (by decide)]
    by_cases h : 0 ≤ jsIndexOf (strCodes "chrome:// newtab/") extId
    · rw [if_pos h]
    · rw [if_neg h, if_pos (by decide)]
  · intro extId h
    apply cleanUrl_eq_self
    · decide
    · rw [h]; decide
    · decide
    · decide
    · decide
    · decide

/-- Closed-form witness for the hypothesis of `cleanUrl_newtab`: with the
repository test extension id, "chrome://newtab/" is returned unchanged
while "chrome:// newtab/" is filtered. -/
theorem cleanUrl_newtab_witness :
    jsIndexOf (strCodes "chrome://newtab/") (strCodes "test-extension-id-12345") = -1
    ∧ cleanUrl (strCodes "test-extension-id-12345") (strCodes "chrome://newtab/")
        = strCodes "chrome://newtab/"
    ∧ cleanUrl (strCodes "test-extension-id-12345") (strCodes "chrome:// newtab/") = [] :=
  ⟨by decide,
   cleanUrl_newtab.2 (strCodes "test-extension-id-12345") (by decide),
   cleanUrl_newtab.1 (strCodes "test-extension-id-12345")⟩

/-- Saved window geometry, as stored in `session.windowBounds`. -/
structure WindowBounds where
  left : Int
  top : Int
  width : Int
  height : Int
deriving DecidableEq

/-- A session record.  `key` is an artificial surrogate for JavaScript
object identity (two registry entries are the same object iff their keys
agree); every other field is a field of the source's session objects,
with the polymorphic `false` sentinels modeled as `Option`. -/
structure Sess where
  key : Nat
  id : Option Nat
  name : Option JsStr
  windowId : Option Nat
  sessionHash : Nat
  tabs : List Tab
  history : List Tab
  lastAccess : Nat
  windowBounds : Option WindowBounds
deriving DecidableEq

/-- The mutable state of the service: the in-memory registry
(`this.sessions`), the durable store rows (`db`), a log of update writes
issued through `_updateSessionSync` (`writes`), the closed-window set and
the two per-window debounce timer maps, plus fresh-id/fresh-key counters
for store id allocation and object creation. -/
structure EngineState where
  sessions : List Sess
  db : List Sess
  writes : List Sess
  closedWindowIds : List Nat
  sessionUpdateTimers : List Nat
  boundsUpdateTimers : List Nat
  nextId : Nat
  nextKey : Nat
deriving DecidableEq

/-- The `addUrlToSessionHistory` method of `spacesService.js`
(lines 824-867), returning the source's `false`/session result as a
`Bool` success flag beside the (possibly updated) session.  The source's
`if (!session.history) session.history = []` guard handles only the
`undefined` history of legacy rows, which does not arise in this model
where `history` is always a list. -/
def addUrlToSessionHistory (extId : JsStr) (session : Sess) (newUrl : JsStr) :
    Bool × Sess :=
  let cleanUrlResult := cleanUrl extId newUrl
  if cleanUrlResult.length = 0 then (false, session)
  else
    -- don't add removed tab to history if there is still a tab open with
    -- same url; note: assumes tab has NOT already been removed from session.tabs
    let tabBeingRemoved := session.tabs.filter
      (fun curTab => decide (cleanUrl extId curTab.url = cleanUrlResult))
    if tabBeingRemoved.length ≠ 1 then (false, session)
    else
      -- see if tab already exists in history; if so then remove it
      -- (Array.prototype.some with splice removes the first match)
      let hist := session.history.eraseP
        (fun historyTab => decide (cleanUrl extId historyTab.url = cleanUrlResult))
      -- session.history = tabBeingRemoved.concat(session.history), then
      -- trimmed to the last 200 items via slice(0, 200)
      (true, { session with history := (tabBeingRemoved ++ hist).take 200 })

/-- Folding a list of removed-tab urls through `addUrlToSessionHistory`,
as a window event drains the history queue for one session. -/
def addUrlsToSessionHistory (extId : JsStr) (session : Sess) (urls : List JsStr) : Sess :=
  urls.foldl (fun s u => (addUrlToSessionHistory extId s u).2) session

/-- A concrete session used to refute the literal disjointness claim:
one open tab and an empty history. -/
def c2Session : Sess :=
  { key := 0, id := some 1, name := some (strCodes "demo"), windowId := some 7,
    sessionHash := 0, tabs := [⟨strCodes "https://a.com"⟩], history := [],
    lastAccess := 0, windowBounds := none }

/-- C2 is refuted as stated: starting from a session whose history is
empty and whose single tab is "https://a.com", one
`addUrlToSessionHistory` call for that url succeeds and leaves the
cleaned url "https://a.com" present in `tabs` and in `history` at once
(the function assumes the tab has not yet been removed from
`session.tabs`, so tabs/history disjointness is violated right after the
call). -/
theorem addUrlToSessionHistory_counterexample :
    ((addUrlsToSessionHistory (strCodes "xq") c2Session [strCodes "https://a.com"]).history.map
        (fun t => cleanUrl (strCodes "xq") t.url) = [strCodes "https://a.com"])
    ∧ ((addUrlsToSessionHistory (strCodes "xq") c2Session [strCodes "https://a.com"]).tabs.map
        (fun t => cleanUrl (strCodes "xq") t.url) = [strCodes "https://a.com"])
    ∧ ¬ (∀ t ∈ (addUrlsToSessionHistory (strCodes "xq") c2Session
          [strCodes "https://a.com"]).history,
        ∀ t2 ∈ (addUrlsToSessionHistory (strCodes "xq") c2Session
          [strCodes "https://a.com"]).tabs,
        cleanUrl (strCodes "xq") t.url ≠ cleanUrl (strCodes "xq") t2.url) := by
  refine ⟨by decide, by decide, ?_⟩
  intro h
  exact h ⟨strCodes "https://a.com"⟩ (by decide) ⟨strCodes "https://a.com"⟩ (by decide) (by decide)

theorem addUrlToSessionHistory_step (extId : JsStr) (s : Sess) (u : JsStr) :
    ((addUrlToSessionHistory extId s u).2.tabs = s.tabs)
    ∧ (s.history.length ≤ 200 → (addUrlToSessionHistory extId s u).2.history.length ≤ 200)
    ∧ (∀ t ∈ (addUrlToSessionHistory extId s u).2.history,
        t ∈ s.history ∨ (t ∈ s.tabs ∧
          (s.tabs.filter (fun c => decide (cleanUrl extId c.url = cleanUrl extId t.url))).length
            = 1)) := by
  unfold addUrlToSessionHistory
  by_cases h0 : (cleanUrl extId u).length = 0
  · simp only [if_pos h0]
    exact ⟨trivial, fun h => h, fun t ht => Or.inl ht⟩
  · simp only [if_neg h0]
    by_cases h1 : (s.tabs.filter
        (fun curTab => decide (cleanUrl extId curTab.url = cleanUrl extId u))).length ≠ 1
    · simp only [if_pos h1]
      exact ⟨trivial, fun h => h, fun t ht => Or.inl ht⟩
    · simp only [if_neg h1]
      refine ⟨trivial, fun _ => ?_, fun t ht => ?_⟩
      · exact List.length_take_le 200 _
      · simp only at ht
        have ht2 := List.take_subset 200 _ ht
        rcases List.mem_append.mp ht2 with hmem | hmem
        · right
          have := List.mem_filter.mp hmem
          refine ⟨this.1, ?_⟩
          have heq : cleanUrl extId t.url = cleanUrl extId u := of_decide_eq_true this.2
          rw [heq]
          exact Decidable.not_not.mp h1
        · left
          exact (List.eraseP_sublist s.history).subset hmem

/-- C2 (amended): `addUrlToSessionHistory` never modifies `S.tabs`; after
any finite sequence of calls the history length stays at most 200
provided it was at most 200 initially; and every history entry of the
final session either was already in the initial history or is a tab of
`S.tabs` whose cleaned url occurs exactly once in `S.tabs`.  In
particular a cleaned url may legitimately occur in `S.tabs` and
`S.history` at once, so the literal disjointness half of the original
claim does not hold. -/
theorem addUrlsToSessionHistory_amended (extId : JsStr) (s : Sess) (urls : List JsStr)
    (hlen : s.history.length ≤ 200) :
    ((addUrlsToSessionHistory extId s urls).tabs = s.tabs)
    ∧ ((addUrlsToSessionHistory extId s urls).history.length ≤ 200)
    ∧ (∀ t ∈ (addUrlsToSessionHistory extId s urls).history,
        t ∈ s.history ∨ (t ∈ s.tabs ∧
          (s.tabs.filter (fun c => decide (cleanUrl extId c.url = cleanUrl extId t.url))).length
            = 1)) := by
  induction urls generalizing s with
  | nil => exact ⟨rfl, hlen, fun t ht => Or.inl ht⟩
  | cons u rest ih =>
    have hstep := addUrlToSessionHistory_step extId s u
    have hfold : addUrlsToSessionHistory extId s (u :: rest)
        = addUrlsToSessionHistory extId (addUrlToSessionHistory extId s u).2 rest := rfl
    have ihall := ih (addUrlToSessionHistory extId s u).2 (hstep.2.1 hlen)
    rw [hfold]
    refine ⟨by rw [ihall.1, hstep.1], ihall.2.1, fun t ht => ?_⟩
    rcases ihall.2.2 t ht with hin | ⟨hin, hcnt⟩
    · exact hstep.2.2 t hin
    · right
      rw [hstep.1] at hin hcnt
      exact ⟨hin, hcnt⟩

/-- Closed-form witness for `addUrlsToSessionHistory_amended` at a
concrete session and call sequence. -/
theorem addUrlsToSessionHistory_amended_witness :
    c2Session.history.length ≤ 200
    ∧ ((addUrlsToSessionHistory (strCodes "xq") c2Session
          [strCodes "https://a.com", strCodes "https://b.com"]).history.length ≤ 200) :=
  ⟨by decide,
   (addUrlsToSessionHistory_amended (strCodes "xq") c2Session
      [strCodes "https://a.com", strCodes "https://b.com"] (by decide)).2.1⟩

/-- The store write of `dbService.updateSession` via `db.js` `update`
(an IndexedDB put): replace the row carrying the same id, appending the
row when no such row exists. -/
def upsertById (db : List Sess) (s : Sess) : List Sess :=
  if db.any (fun t => decide (t.id = s.id)) then
    db.map (fun t => if t.id = s.id then s else t)
  else db ++ [s]

/-- The memory-cache patch inside `_updateSessionSync`:
`findIndex(s => s.id === session.id)` followed by `Object.assign` of the
updated row onto the cached entry, preserving the entry's object identity
(its `key`). -/
def patchFirstById : List Sess → Sess → List Sess
  | [], _ => []
  | t :: ts, s =>
    if t.id = s.id then { s with key := t.key } :: ts else t :: patchFirstById ts s

/-- The `_updateSessionSync` method of `spacesService.js`
(lines 1073-1094): `dbService.updateSession` returns null when the
session has no id and otherwise writes the row, after which the first
cached entry with that id is patched in place.  Every issued store update
is recorded in the `writes` log. -/
def updateSessionSync (st : EngineState) (session : Sess) : Option Sess × EngineState :=
  if session.id.isNone then (none, st)
  else
    (some session,
     { st with
        db := upsertById st.db session,
        writes := st.writes ++ [session],
        sessions := patchFirstById st.sessions session })

/-- The `getSessionByWindowId`/`_getSessionByWindowIdInternal` methods
(lines 432-460) in the initialized state: the in-memory registry is
consulted first and the store scan `dbService.fetchSessionByWindowId`
(first row bound to the window, or false) is the fallback. -/
def getSessionByWindowId (st : EngineState) (windowId : Nat) : Option Sess :=
  match st.sessions.find? (fun s => decide (s.windowId = some windowId)) with
  | some memorySession => some memorySession
  | none => st.db.find? (fun s => decide (s.windowId = some windowId))

/-- One step of the cleanup loop in `matchSessionToWindow`: an entry
bound to `w` is cleared (`windowId = false`) when durable and spliced out
when temporary; every other entry is untouched. -/
def clearFun (w : Nat) (s : Sess) : Option Sess :=
  if s.windowId = some w then
    if s.id.isSome then some { s with windowId := none } else none
  else some s

/-- The `matchSessionToWindow` method of `spacesService.js`
(lines 244-268).  The target session — in every caller an object of the
registry — is designated by its object key `k`.  The source's reverse
for-loop over `this.sessions` removes or clears every entry whose
`windowId` equals `curWindow.id`, persisting each cleared durable entry
via `_updateSessionSync`; the loop is rendered as a `filterMap` with
`clearFun` followed by the corresponding sequence of store syncs (the
loop body issues them newest-index-first, hence the `reverse`).  Then
`session.windowId = curWindow.id` is assigned and, if the session has an
id, persisted. -/
def matchClearPass (st : EngineState) (w : Nat) : EngineState :=
  ((st.sessions.filter
      (fun s => decide (s.windowId = some w) && s.id.isSome)).reverse).foldl
    (fun acc s => (updateSessionSync acc { s with windowId := none }).2)
    { st with sessions := st.sessions.filterMap (clearFun w) }

def matchAssignPass (st2 : EngineState) (k : Nat) (w : Nat) : EngineState :=
  match st2.sessions.find? (fun s => decide (s.key = k)) with
  | some t =>
    let t2 := { t with windowId := some w }
    let st3 := { st2 with
      sessions := st2.sessions.map (fun s => if s.key = k then t2 else s) }
    if t2.id.isSome then (updateSessionSync st3 t2).2 else st3
  | none => st2

def matchSessionToWindow (st : EngineState) (k : Nat) (w : Nat) : EngineState :=
  matchAssignPass (matchClearPass st w) k w

/-- Distinctness of two registry entries: different object identities,
and different ids when either is durable.  The theorems about the
registry assume the session list is pairwise distinct in this sense,
which the service maintains via `_addSessionSafely`. -/
def sessDistinct (a b : Sess) : Prop :=
  a.key ≠ b.key ∧ ((a.id.isSome ∨ b.id.isSome) → a.id ≠ b.id)

theorem sessDistinct_symm : Symmetric sessDistinct := by
  intro a b h
  exact ⟨fun e => h.1 e.symm, fun hs e => h.2 (hs.elim Or.inr Or.inl) e.symm⟩

instance sessDistinct.instDecidableRel : DecidableRel sessDistinct := by
  intro a b
  unfold sessDistinct
  infer_instance

theorem clearFun_some {w : Nat} {s t : Sess} (h : clearFun w s = some t) :
    t.key = s.key ∧ t.id = s.id ∧ t.windowId ≠ some w
    ∧ (t = s ∨ (s.windowId = some w ∧ s.id.isSome = true
        ∧ t = { s with windowId := none })) := by
  unfold clearFun at h
  by_cases h1 : s.windowId = some w
  · rw [if_pos h1] at h
    by_cases h2 : s.id.isSome = true
    · rw [if_pos h2] at h
      cases h
      exact ⟨rfl, rfl, by simp, Or.inr ⟨h1, h2, rfl⟩⟩
    · rw [if_neg h2] at h
      cases h
  · rw [if_neg h1] at h
    cases h
    exact ⟨rfl, rfl, h1, Or.inl rfl⟩

theorem clearFun_of_bound {w : Nat} {s : Sess} (h1 : s.windowId = some w)
    (h2 : s.id.isSome = true) : clearFun w s = some { s with windowId := none } := by
  unfold clearFun
  rw [if_pos h1, if_pos h2]

theorem clearFun_of_unbound {w : Nat} {s : Sess} (h1 : s.windowId ≠ some w) :
    clearFun w s = some s := by
  unfold clearFun
  rw [if_neg h1]

theorem patchFirstById_eq_self (l : List Sess) (s : Sess)
    (h : ∀ t ∈ l, t.id = s.id → t = s) :
    patchFirstById l s = l := by
  induction l with
  | nil => rfl
  | cons t ts ih =>
    unfold patchFirstById
    by_cases he : t.id = s.id
    · rw [if_pos he]
      have ht : t = s := h t (List.mem_cons_self t ts) he
      subst ht
      rfl
    · rw [if_neg he]
      rw [ih (fun u hu hid => h u (List.mem_cons_of_mem _ hu) hid)]

theorem updateSessionSync_of_isSome (st : EngineState) (s : Sess)
    (h : s.id.isSome = true) :
    (updateSessionSync st s).2
      = { st with
            db := upsertById st.db s,
            writes := st.writes ++ [s],
            sessions := patchFirstById st.sessions s } := by
  unfold updateSessionSync
  have : s.id.isNone = false := by
    cases hs : s.id with
    | none => rw [hs] at h; cases h
    | some v => rfl
  rw [if_neg (by rw [this]; exact Bool.false_ne_true)]

theorem foldl_updateSessionSync (ss : List Sess) (st : EngineState)
    (h : ∀ s ∈ ss, s.id.isSome = true ∧ ∀ t ∈ st.sessions, t.id = s.id → t = s) :
    ((ss.foldl (fun acc s => (updateSessionSync acc s).2) st).sessions = st.sessions)
    ∧ ((ss.foldl (fun acc s => (updateSessionSync acc s).2) st).writes
        = st.writes ++ ss) := by
  induction ss generalizing st with
  | nil => exact ⟨rfl, by simp⟩
  | cons s rest ih =>
    have hs := h s (List.mem_cons_self s rest)
    have hstep : (updateSessionSync st s).2
        = { st with
              db := upsertById st.db s,
              writes := st.writes ++ [s],
              sessions := patchFirstById st.sessions s } :=
      updateSessionSync_of_isSome st s hs.1
    have hpatch : patchFirstById st.sessions s = st.sessions :=
      patchFirstById_eq_self _ _ hs.2
    rw [List.foldl_cons, hstep, hpatch]
    have ihall := ih { st with
        db := upsertById st.db s,
        writes := st.writes ++ [s],
        sessions := st.sessions }
      (fun u hu => ⟨(h u (List.mem_cons_of_mem _ hu)).1,
        (h u (List.mem_cons_of_mem _ hu)).2⟩)
    refine ⟨ihall.1, ?_⟩
    rw [ihall.2]
    simp

/-- The net effect of `matchSessionToWindow` on the registry list: every
entry bound to `w` is cleared (durable) or removed (temporary), then the
target object — designated by key `k` — receives `windowId = w`. -/
def bindSessions (l : List Sess) (k w : Nat) : List Sess :=
  (l.filterMap (clearFun w)).map
    (fun s => if s.key = k then { s with windowId := some w } else s)

theorem mem_bindSessions {t : Sess} {l : List Sess} {k w : Nat} :
    t ∈ bindSessions l k w ↔ ∃ s ∈ l, ∃ y, clearFun w s = some y
      ∧ t = (if y.key = k then { y with windowId := some w } else y) := by
  unfold bindSessions
  constructor
  · intro h
    rcases List.mem_map.mp h with ⟨y, hy, hty⟩
    rcases List.mem_filterMap.mp hy with ⟨s, hs, hsy⟩
    exact ⟨s, hs, y, hsy, hty.symm⟩
  · rintro ⟨s, hs, y, hsy, ht⟩
    exact List.mem_map.mpr ⟨y, List.mem_filterMap.mpr ⟨s, hs, hsy⟩, ht.symm⟩

theorem sessDistinct_congr {a b a2 b2 : Sess} (hak : a2.key = a.key)
    (hai : a2.id = a.id) (hbk : b2.key = b.key) (hbi : b2.id = b.id)
    (h : sessDistinct a b) : sessDistinct a2 b2 := by
  refine ⟨?_, ?_⟩
  · rw [hak, hbk]; exact h.1
  · rw [hak, hai, hbk, hbi] at *
    intro hs
    rw [hai, hbi]
    exact h.2 (by rw [← hai, ← hbi]; exact hs)

theorem filterMap_clearFun_pairwise {l : List Sess} (w : Nat)
    (h : l.Pairwise sessDistinct) :
    (l.filterMap (clearFun w)).Pairwise sessDistinct := by
  refine List.Pairwise.filterMap (clearFun w) ?_ h
  intro a b hab x hx y hy
  have cx := clearFun_some hx
  have cy := clearFun_some hy
  exact sessDistinct_congr cx.1 cx.2.1 cy.1 cy.2.1 hab

theorem bindSessions_pairwise {l : List Sess} (k w : Nat)
    (h : l.Pairwise sessDistinct) : (bindSessions l k w).Pairwise sessDistinct := by
  unfold bindSessions
  have h1 : (l.filterMap (clearFun w)).Pairwise sessDistinct :=
    filterMap_clearFun_pairwise w h
  refine List.pairwise_map.mpr (h1.imp ?_)
  intro a b hab
  have hka : (if a.key = k then { a with windowId := some w } else a).key = a.key := by
    by_cases ha : a.key = k <;> simp [ha]
  have hia : (if a.key = k then { a with windowId := some w } else a).id = a.id := by
    by_cases ha : a.key = k <;> simp [ha]
  have hkb : (if b.key = k then { b with windowId := some w } else b).key = b.key := by
    by_cases hb : b.key = k <;> simp [hb]
  have hib : (if b.key = k then { b with windowId := some w } else b).id = b.id := by
    by_cases hb : b.key = k <;> simp [hb]
  exact sessDistinct_congr hka hia hkb hib hab

theorem bindSessions_bound_key {l : List Sess} {k w : Nat} :
    ∀ t ∈ bindSessions l k w, t.windowId = some w → t.key = k := by
  intro t ht hw
  rcases mem_bindSessions.mp ht with ⟨s, _, y, hsy, hty⟩
  have cy := clearFun_some hsy
  by_cases hk : y.key = k
  · rw [if_pos hk] at hty
    rw [hty]
    exact hk
  · rw [if_neg hk] at hty
    rw [hty] at hw
    exact absurd hw cy.2.2.1

theorem clearPass_pre (st : EngineState) (w : Nat)
    (hmem : ∀ a ∈ st.sessions, ∀ b ∈ st.sessions, a ≠ b → sessDistinct a b) :
    ∀ s2 ∈ ((st.sessions.filter
        (fun s => decide (s.windowId = some w) && s.id.isSome)).reverse).map
        (fun s => { s with windowId := none }),
      s2.id.isSome = true ∧
      ∀ t ∈ st.sessions.filterMap (clearFun w), t.id = s2.id → t = s2 := by
  intro s2 hs2
  rcases List.mem_map.mp hs2 with ⟨s, hsrev, rfl⟩
  have hsf := List.mem_filter.mp (List.mem_reverse.mp hsrev)
  have hcond := hsf.2
  rw [Bool.and_eq_true] at hcond
  have hw : s.windowId = some w := of_decide_eq_true hcond.1
  have hid : s.id.isSome = true := hcond.2
  refine ⟨hid, ?_⟩
  intro t ht hidt
  rcases List.mem_filterMap.mp ht with ⟨t0, ht0, hmap⟩
  have ct := clearFun_some hmap
  by_cases hts : t0 = s
  · subst hts
    rw [clearFun_of_bound hw hid] at hmap
    exact (Option.some_inj.mp hmap).symm
  · exfalso
    have hd := hmem t0 ht0 s hsf.1 hts
    have hts2 : t0.id = s.id := by rw [← ct.2.1]; exact hidt
    exact hd.2 (Or.inr hid) hts2

theorem matchClearPass_spec (st : EngineState) (w : Nat)
    (hdist : st.sessions.Pairwise sessDistinct) :
    ((matchClearPass st w).sessions = st.sessions.filterMap (clearFun w))
    ∧ (∀ s ∈ st.sessions, s.windowId = some w → s.id.isSome = true →
        { s with windowId := none } ∈ (matchClearPass st w).writes)
    ∧ (∀ x ∈ st.writes, x ∈ (matchClearPass st w).writes) := by
  have hmem : ∀ a ∈ st.sessions, ∀ b ∈ st.sessions, a ≠ b → sessDistinct a b :=
    fun a ha b hb hne => hdist.forall sessDistinct_symm ha hb hne
  have hpre := clearPass_pre st w hmem
  have hfold := foldl_updateSessionSync
    (((st.sessions.filter
        (fun s => decide (s.windowId = some w) && s.id.isSome)).reverse).map
      (fun s => { s with windowId := none }))
    { st with sessions := st.sessions.filterMap (clearFun w) } hpre
  have heq : matchClearPass st w
      = (((st.sessions.filter
            (fun s => decide (s.windowId = some w) && s.id.isSome)).reverse).map
          (fun s => { s with windowId := none })).foldl
          (fun acc s => (updateSessionSync acc s).2)
          { st with sessions := st.sessions.filterMap (clearFun w) } := by
    unfold matchClearPass
    rw [List.foldl_map]
  rw [heq]
  refine ⟨hfold.1, ?_, ?_⟩
  · intro s hs hw hid
    rw [hfold.2]
    refine List.mem_append.mpr (Or.inr ?_)
    refine List.mem_map.mpr ⟨s, ?_, rfl⟩
    refine List.mem_reverse.mpr (List.mem_filter.mpr ⟨hs, ?_⟩)
    rw [Bool.and_eq_true]
    exact ⟨decide_eq_true hw, hid⟩
  · intro x hx
    rw [hfold.2]
    exact List.mem_append.mpr (Or.inl hx)

theorem matchAssignPass_spec (st2 : EngineState) (k w : Nat)
    (hdist : st2.sessions.Pairwise sessDistinct) :
    ((matchAssignPass st2 k w).sessions
        = st2.sessions.map
            (fun s => if s.key = k then { s with windowId := some w } else s))
    ∧ (∀ x ∈ st2.writes, x ∈ (matchAssignPass st2 k w).writes) := by
  have hmem : ∀ a ∈ st2.sessions, ∀ b ∈ st2.sessions, a ≠ b → sessDistinct a b :=
    fun a ha b hb hne => hdist.forall sessDistinct_symm ha hb hne
  unfold matchAssignPass
  cases hfind : st2.sessions.find? (fun s => decide (s.key = k)) with
  | none =>
    have hnone := List.find?_eq_none.mp hfind
    have hids : st2.sessions.map
        (fun s => if s.key = k then { s with windowId := some w } else s)
        = st2.sessions := by
      have hfg : ∀ s ∈ st2.sessions,
          (if s.key = k then { s with windowId := some w } else s) = id s := by
        intro s hs
        have : ¬ s.key = k := fun h => (hnone s hs) (decide_eq_true h)
        rw [if_neg this]
        rfl
      rw [List.map_congr_left hfg, List.map_id]
    exact ⟨hids.symm, fun x hx => hx⟩
  | some t =>
    have hp := List.find?_some hfind
    have hkey : t.key = k := by simpa using hp
    have htmem : t ∈ st2.sessions := List.mem_of_find?_eq_some hfind
    have hfuneq : ∀ s ∈ st2.sessions,
        (if s.key = k then { t with windowId := some w } else s)
          = (if s.key = k then { s with windowId := some w } else s) := by
      intro s hs
      by_cases hsk : s.key = k
      · rw [if_pos hsk, if_pos hsk]
        have hst : s = t := by
          by_contra hne
          exact (hmem s hs t htmem hne).1 (hsk.trans hkey.symm)
        rw [hst]
      · rw [if_neg hsk, if_neg hsk]
    dsimp only
    by_cases hts : ({ t with windowId := some w } : Sess).id.isSome = true
    · rw [if_pos hts]
      rw [updateSessionSync_of_isSome _ _ hts]
      have hpatch : patchFirstById
          (st2.sessions.map
            (fun s => if s.key = k then { t with windowId := some w } else s))
          { t with windowId := some w }
          = st2.sessions.map
              (fun s => if s.key = k then { t with windowId := some w } else s) := by
        apply patchFirstById_eq_self
        intro u hu hid
        rcases List.mem_map.mp hu with ⟨s0, hs0, rfl⟩
        by_cases hsk : s0.key = k
        · rw [if_pos hsk]
        · exfalso
          rw [if_neg hsk] at hid
          have hs0t : s0 ≠ t := fun h => hsk (h ▸ hkey)
          have hd := hmem s0 hs0 t htmem hs0t
          exact hd.2 (Or.inr (by simpa using hts)) (by simpa using hid)
      refine ⟨?_, ?_⟩
      · show patchFirstById _ _ = _
        rw [hpatch, List.map_congr_left hfuneq]
      · intro x hx
        show x ∈ st2.writes ++ [{ t with windowId := some w }]
        exact List.mem_append.mpr (Or.inl hx)
    · rw [if_neg hts]
      refine ⟨?_, fun x hx => hx⟩
      show st2.sessions.map _ = _
      rw [List.map_congr_left hfuneq]

theorem matchSessionToWindow_spec (st : EngineState) (k w : Nat)
    (hdist : st.sessions.Pairwise sessDistinct) :
    ((matchSessionToWindow st k w).sessions = bindSessions st.sessions k w)
    ∧ (∀ s ∈ st.sessions, s.windowId = some w → s.id.isSome = true →
        { s with windowId := none } ∈ (matchSessionToWindow st k w).writes)
    ∧ (∀ x ∈ st.writes, x ∈ (matchSessionToWindow st k w).writes) := by
  have hclear := matchClearPass_spec st w hdist
  have hdist1 : (matchClearPass st w).sessions.Pairwise sessDistinct := by
    rw [hclear.1]
    exact filterMap_clearFun_pairwise w hdist
  have hassign := matchAssignPass_spec (matchClearPass st w) k w hdist1
  unfold matchSessionToWindow
  refine ⟨?_, ?_, ?_⟩
  · rw [hassign.1, hclear.1]
    rfl
  · intro s hs hw hid
    exact hassign.2 _ (hclear.2.1 s hs hw hid)
  · intro x hx
    exact hassign.2 _ (hclear.2.2 x hx)

theorem bindSessions_mem_target {l : List Sess} {S : Sess} (w : Nat)
    (hS : S ∈ l) (hid : S.id.isSome = true ∨ S.windowId ≠ some w) :
    { S with windowId := some w } ∈ bindSessions l S.key w := by
  rcases hid with hid | hwid
  · by_cases hw : S.windowId = some w
    · refine mem_bindSessions.mpr ⟨S, hS, { S with windowId := none },
        clearFun_of_bound hw hid, ?_⟩
      rw [if_pos rfl]
    · refine mem_bindSessions.mpr ⟨S, hS, S, clearFun_of_unbound hw, ?_⟩
      rw [if_pos rfl]
  · refine mem_bindSessions.mpr ⟨S, hS, S, clearFun_of_unbound hwid, ?_⟩
    rw [if_pos rfl]

/-- C3: binding a window W to S and then to S' leaves S' as the only
registry entry bound to W.  A durable S keeps its registry entry with
`window_id` cleared and that cleared row is persisted (it appears in the
store-write log of the run); a temporary S is spliced out of the
registry entirely.  The hypotheses say that the registry entries are
pairwise distinct objects with pairwise distinct durable ids and that S
and S' are two different registry objects. -/
theorem matchSessionToWindow_rebind (st : EngineState) (w : Nat) (S S2 : Sess)
    (hdist : st.sessions.Pairwise sessDistinct)
    (hS : S ∈ st.sessions) (_hS2 : S2 ∈ st.sessions) (hkk : S.key ≠ S2.key) :
    (∀ t ∈ (matchSessionToWindow (matchSessionToWindow st S.key w) S2.key w).sessions,
        t.windowId = some w → t.key = S2.key)
    ∧ (S.id.isSome = true →
        { S with windowId := none }
          ∈ (matchSessionToWindow (matchSessionToWindow st S.key w) S2.key w).sessions)
    ∧ (S.id = none →
        ∀ t ∈ (matchSessionToWindow (matchSessionToWindow st S.key w) S2.key w).sessions,
          t.key ≠ S.key)
    ∧ (S.id.isSome = true →
        { S with windowId := none }
          ∈ (matchSessionToWindow (matchSessionToWindow st S.key w) S2.key w).writes) := by
  have hmem : ∀ a ∈ st.sessions, ∀ b ∈ st.sessions, a ≠ b → sessDistinct a b :=
    fun a ha b hb hne => hdist.forall sessDistinct_symm ha hb hne
  have hspec1 := matchSessionToWindow_spec st S.key w hdist
  have hdistB : (matchSessionToWindow st S.key w).sessions.Pairwise sessDistinct := by
    rw [hspec1.1]
    exact bindSessions_pairwise S.key w hdist
  have hspec2 := matchSessionToWindow_spec (matchSessionToWindow st S.key w) S2.key w hdistB
  refine ⟨?_, ?_, ?_, ?_⟩
  · intro t ht hw
    rw [hspec2.1] at ht
    exact bindSessions_bound_key t ht hw
  · intro hid
    have hSw : { S with windowId := some w } ∈ (matchSessionToWindow st S.key w).sessions := by
      rw [hspec1.1]
      exact bindSessions_mem_target w hS (Or.inl hid)
    rw [hspec2.1]
    refine mem_bindSessions.mpr ⟨{ S with windowId := some w }, hSw,
      { S with windowId := none }, clearFun_of_bound rfl (by simpa using hid), ?_⟩
    rw [if_neg ?_]
    intro hk
    exact hkk hk
  · intro hidnone t ht htk
    rw [hspec2.1, hspec1.1] at ht
    rcases mem_bindSessions.mp ht with ⟨x, hx, y1, hy1, hty⟩
    have cx1 := clearFun_some hy1
    have htkey : t.key = y1.key := by
      by_cases hyk : y1.key = S2.key
      · rw [hty, if_pos hyk]
      · rw [hty, if_neg hyk]
    have hxk : x.key = S.key := by
      rw [← cx1.1, ← htkey, htk]
    rcases mem_bindSessions.mp hx with ⟨x0, hx0, y0, hy0, hxy⟩
    have cx0 := clearFun_some hy0
    have hxkey : x.key = y0.key := by
      by_cases hyk : y0.key = S.key
      · rw [hxy, if_pos hyk]
      · rw [hxy, if_neg hyk]
    have hx0k : x0.key = S.key := by rw [← cx0.1, ← hxkey, hxk]
    have hx0S : x0 = S := by
      by_contra hne
      exact (hmem x0 hx0 S hS hne).1 hx0k
    have hy0x0 : y0 = x0 := by
      rcases cx0.2.2.2 with h | ⟨_, hsome, _⟩
      · exact h
      · rw [hx0S, hidnone] at hsome
        simp at hsome
    have hxval : x = { x0 with windowId := some w } := by
      rw [hxy, hy0x0, if_pos hx0k]
    have hxw : x.windowId = some w := by rw [hxval]
    have hxid : x.id.isSome = false := by
      rw [hxval]
      show x0.id.isSome = false
      rw [hx0S, hidnone]
      rfl
    unfold clearFun at hy1
    rw [if_pos hxw] at hy1
    rw [hxid] at hy1
    cases hy1
  · intro hid
    have hSw : { S with windowId := some w } ∈ (matchSessionToWindow st S.key w).sessions := by
      rw [hspec1.1]
      exact bindSessions_mem_target w hS (Or.inl hid)
    have := hspec2.2.1 { S with windowId := some w } hSw rfl (by simpa using hid)
    exact this

/-- A durable registry session used in concrete rebind scenarios. -/
def c3S : Sess :=
  { key := 0, id := some 1, name := some (strCodes "work"), windowId := none,
    sessionHash := 0, tabs := [⟨strCodes "https://a.com"⟩], history := [],
    lastAccess := 5, windowBounds := none }

/-- A second durable registry session for the rebind scenario. -/
def c3S2 : Sess :=
  { key := 1, id := some 2, name := some (strCodes "home"), windowId := none,
    sessionHash := 0, tabs := [⟨strCodes "https://b.com"⟩], history := [],
    lastAccess := 6, windowBounds := none }

/-- A two-session engine state for the concrete rebind witness. -/
def c3State : EngineState :=
  { sessions := [c3S, c3S2], db := [c3S, c3S2], writes := [], closedWindowIds := [],
    sessionUpdateTimers := [], boundsUpdateTimers := [], nextId := 3, nextKey := 2 }

/-- Closed-form witness for `matchSessionToWindow_rebind`: binding window 9
to `c3S` and then to `c3S2` leaves `c3S` cleared in the registry and its
cleared row persisted. -/
theorem matchSessionToWindow_rebind_witness :
    c3State.sessions.Pairwise sessDistinct
    ∧ c3S ∈ c3State.sessions
    ∧ c3S2 ∈ c3State.sessions
    ∧ c3S.key ≠ c3S2.key
    ∧ { c3S with windowId := none }
        ∈ (matchSessionToWindow (matchSessionToWindow c3State c3S.key 9) c3S2.key 9).sessions
    ∧ { c3S with windowId := none }
        ∈ (matchSessionToWindow (matchSessionToWindow c3State c3S.key 9) c3S2.key 9).writes :=
  ⟨by decide, by decide, by decide, by decide,
   (matchSessionToWindow_rebind c3State 9 c3S c3S2
      (by decide) (by decide) (by decide) (by decide)).2.1 (by decide),
   (matchSessionToWindow_rebind c3State 9 c3S c3S2
      (by decide) (by decide) (by decide) (by decide)).2.2.2 (by decide)⟩

/-- The `_addSessionSafely` method of `spacesService.js` (lines 278-310):
a saved session is rejected when another entry carries the same id, any
session with a window is rejected when another entry carries the same
windowId; otherwise the session is pushed. -/
def addSessionSafely (st : EngineState) (newSession : Sess) : Bool × EngineState :=
  if newSession.id.isSome
      && st.sessions.any (fun s => decide (s.id = newSession.id)) then
    (false, st)
  else if newSession.windowId.isSome
      && st.sessions.any (fun s => decide (s.windowId = newSession.windowId)) then
    (false, st)
  else (true, { st with sessions := st.sessions ++ [newSession] })

/-- The success path of `_createSessionSync` (lines 1044-1065):
`dbService.createSession` strips any id and the store assigns the next
auto-increment id; the freshly saved row is then assigned onto the cached
object (found by identity, here by `key`) when it is present. -/
def createSessionSync (st : EngineState) (session : Sess) : Option Sess × EngineState :=
  let savedSession := { session with id := some st.nextId }
  let st1 := { st with db := st.db ++ [savedSession], nextId := st.nextId + 1 }
  if st1.sessions.any (fun s => decide (s.key = session.key)) then
    (some savedSession,
     { st1 with
        sessions := st1.sessions.map
          (fun s => if s.key = session.key then savedSession else s) })
  else (some savedSession, st1)

/-- The tail of `saveNewSession` shared by its three ways of obtaining a
session object: update the session's details in place and save it through
`_createSessionSync`. -/
def saveNewSessionFinish (st : EngineState) (session : Sess) (sessionName : JsStr)
    (sessionHash : Nat) (tabs : List Tab) (windowBounds : Option WindowBounds)
    (now : Nat) : Option Sess × EngineState :=
  let s2 := { session with
    name := some sessionName, sessionHash := sessionHash, tabs := tabs,
    lastAccess := now,
    windowBounds := match windowBounds with
      | some b => some b
      | none => session.windowBounds }
  let st2 := { st with
    sessions := st.sessions.map (fun s => if s.key = session.key then s2 else s) }
  createSessionSync st2 s2

/-- The `saveNewSession` method of `spacesService.js` (lines 963-1031).
`tabs = none` renders the falsy-tabs guard, `windowId = none` a call
without a window id; `now` stands for `new Date()`.  A window bound to a
saved session is rejected before any state is touched; a temporary
session for the window is reused; otherwise a fresh `{windowId,
history: []}` object is added via `_addSessionSafely`, adopting the
competitor on a lost race. -/
def saveNewSession (extId : JsStr) (st : EngineState) (sessionName : JsStr)
    (tabs : Option (List Tab)) (windowId : Option Nat)
    (windowBounds : Option WindowBounds) (now : Nat) : Option Sess × EngineState :=
  match tabs with
  | none => (none, st)
  | some tabs =>
    let sessionHash := generateSessionHash extId tabs
    -- check for a temporary session with this windowId
    let found : Option Sess :=
      match windowId with
      | some w => getSessionByWindowId st w
      | none => none
    match found with
    | some existingSession =>
      if existingSession.id.isSome then
        -- a saved session: reject immediately to prevent data corruption
        (none, st)
      else
        saveNewSessionFinish st existingSession sessionName sessionHash tabs
          windowBounds now
    | none =>
      let newSession : Sess :=
        { key := st.nextKey, id := none, name := none, windowId := windowId,
          sessionHash := 0, tabs := [], history := [], lastAccess := 0,
          windowBounds := none }
      let stK := { st with nextKey := st.nextKey + 1 }
      let added := addSessionSafely stK newSession
      if added.1 then
        saveNewSessionFinish added.2 newSession sessionName sessionHash tabs
          windowBounds now
      else
        -- race: another operation created a session for this windowId
        match windowId with
        | some w =>
          match getSessionByWindowId added.2 w with
          | some raceConditionSession =>
            saveNewSessionFinish added.2 raceConditionSession sessionName
              sessionHash tabs windowBounds now
          | none => (none, added.2)
        | none => (none, added.2)

/-- C4: a `saveNewSession` call naming a window that is already bound to a
durable session (the lookup yields a session with a present id) fails
with null and performs no state change at all. -/
theorem saveNewSession_rejects_bound_window (extId : JsStr) (st : EngineState)
    (sessionName : JsStr) (tabs : List Tab) (w : Nat)
    (windowBounds : Option WindowBounds) (now : Nat) (e : Sess)
    (hfound : getSessionByWindowId st w = some e) (hid : e.id.isSome = true) :
    saveNewSession extId st sessionName (some tabs) (some w) windowBounds now
      = (none, st) := by
  unfold saveNewSession
  dsimp only
  rw [hfound]
  dsimp only
  rw [if_pos hid]

/-- A state whose window 5 is bound to the durable session `c3S`
(windowId 5), for the rejection witness. -/
def c4State : EngineState :=
  { sessions := [{ c3S with windowId := some 5 }], db := [{ c3S with windowId := some 5 }],
    writes := [], closedWindowIds := [], sessionUpdateTimers := [],
    boundsUpdateTimers := [], nextId := 3, nextKey := 2 }

/-- Closed-form witness for `saveNewSession_rejects_bound_window` at a
concrete state: saving over window 5 is rejected and the state survives
untouched. -/
theorem saveNewSession_rejects_bound_window_witness :
    getSessionByWindowId c4State 5 = some { c3S with windowId := some 5 }
    ∧ ({ c3S with windowId := some 5 } : Sess).id.isSome = true
    ∧ saveNewSession (strCodes "xq") c4State (strCodes "mine")
        (some [⟨strCodes "https://c.com"⟩]) (some 5) none 7 = (none, c4State) :=
  ⟨by decide, by decide,
   saveNewSession_rejects_bound_window (strCodes "xq") c4State (strCodes "mine")
     [⟨strCodes "https://c.com"⟩] 5 none 7 { c3S with windowId := some 5 }
     (by decide) (by decide)⟩

/-- The `handleWindowRemoved` method of `spacesService.js`
(lines 609-656), paired with its promised boolean.  A duplicate event for
an already-closed window returns immediately.  With `markAsClosed` the
window enters the closed set and its two debounce timers are cancelled.
A durable bound session has its `windowId` cleared on the cached object
(located by key) and is persisted via `_updateSessionSync`; a temporary
bound session is spliced out of the cache (first match). -/
def handleWindowRemoved (st : EngineState) (windowId : Nat) (markAsClosed : Bool) :
    Bool × EngineState :=
  if st.closedWindowIds.contains windowId then (true, st)
  else
    let st1 := if markAsClosed then
        { st with
          closedWindowIds := windowId :: st.closedWindowIds,
          boundsUpdateTimers := st.boundsUpdateTimers.erase windowId,
          sessionUpdateTimers := st.sessionUpdateTimers.erase windowId }
      else st
    match getSessionByWindowId st1 windowId with
    | none => (true, st1)
    | some session =>
      if session.id.isSome then
        let s2 := { session with windowId := none }
        let st2 := { st1 with
          sessions := st1.sessions.map (fun s => if s.key = session.key then s2 else s) }
        (true, (updateSessionSync st2 s2).2)
      else
        (true, { st1 with
          sessions := st1.sessions.eraseP
            (fun s => decide (s.windowId = some windowId)) })

theorem patchFirstById_key_unique (l : List Sess) (s2 : Sess)
    (hK : ∀ u ∈ l, u.key = s2.key → u = s2) :
    ∀ t ∈ patchFirstById l s2, t.key = s2.key → t = s2 := by
  induction l with
  | nil => intro t ht; cases ht
  | cons u us ih =>
    intro t ht htk
    unfold patchFirstById at ht
    by_cases he : u.id = s2.id
    · rw [if_pos he] at ht
      rcases List.mem_cons.mp ht with h | h
      · have huk : u.key = s2.key := by
          have htu : t.key = u.key := by rw [h]
          rw [← htu, htk]
        rw [h, huk]
      · exact hK t (List.mem_cons_of_mem _ h) htk
    · rw [if_neg he] at ht
      rcases List.mem_cons.mp ht with h | h
      · rw [h]
        exact hK u (List.mem_cons_self u us) (h ▸ htk)
      · exact ih (fun v hv => hK v (List.mem_cons_of_mem _ hv)) t h htk

theorem patchFirstById_mem_self (l : List Sess) (s2 : Sess) (h : s2 ∈ l) :
    s2 ∈ patchFirstById l s2 := by
  induction l with
  | nil => cases h
  | cons u us ih =>
    unfold patchFirstById
    by_cases he : u.id = s2.id
    · rw [if_pos he]
      rcases List.mem_cons.mp h with hh | hh
      · rw [← hh]
        exact List.mem_cons_self _ _
      · exact List.mem_cons_of_mem _ hh
    · rw [if_neg he]
      rcases List.mem_cons.mp h with hh | hh
      · exact absurd (hh ▸ rfl : u.id = s2.id) he
      · exact List.mem_cons_of_mem _ (ih hh)

theorem handleWindowRemoved_durable_state (st : EngineState) (w : Nat) (mark : Bool)
    (S : Sess)
    (hclosed : st.closedWindowIds.contains w = false)
    (hfind : st.sessions.find? (fun s => decide (s.windowId = some w)) = some S)
    (hid : S.id.isSome = true) :
    ∃ st1 : EngineState,
      st1.sessions = st.sessions ∧ st1.writes = st.writes
      ∧ st1.closedWindowIds
          = (if mark then w :: st.closedWindowIds else st.closedWindowIds)
      ∧ handleWindowRemoved st w mark
        = (true, (updateSessionSync
            { st1 with
              sessions := st1.sessions.map
                (fun s => if s.key = S.key then { S with windowId := none } else s) }
            { S with windowId := none }).2) := by
  refine ⟨(if mark then
      { st with
        closedWindowIds := w :: st.closedWindowIds,
        boundsUpdateTimers := st.boundsUpdateTimers.erase w,
        sessionUpdateTimers := st.sessionUpdateTimers.erase w }
    else st), ?_, ?_, ?_, ?_⟩
  · cases mark <;> rfl
  · cases mark <;> rfl
  · cases mark <;> rfl
  · cases mark
    · rw [if_neg Bool.false_ne_true]
      unfold handleWindowRemoved
      rw [if_neg (by rw [hclosed]; exact Bool.false_ne_true)]
      rw [if_neg Bool.false_ne_true]
      dsimp only
      unfold getSessionByWindowId
      rw [hfind]
      dsimp only
      rw [if_pos hid]
    · rw [if_pos rfl]
      unfold handleWindowRemoved
      rw [if_neg (by rw [hclosed]; exact Bool.false_ne_true)]
      rw [if_pos rfl]
      dsimp only
      unfold getSessionByWindowId
      dsimp only
      rw [hfind]
      dsimp only
      rw [if_pos hid]

/-- C9: for a durable session S bound to window W (the registry lookup
finds it and its id is present), a non-duplicate
`handleWindowRemoved(W, mark_closed)` — for either value of
`mark_closed` — replaces S's registry entry by S with `window_id`
cleared and every other field, `window_bounds` included, unchanged, and
persists exactly that cleared row. -/
theorem handleWindowRemoved_preserves_fields (st : EngineState) (w : Nat)
    (markAsClosed : Bool) (S : Sess)
    (hclosed : st.closedWindowIds.contains w = false)
    (hfind : st.sessions.find? (fun s => decide (s.windowId = some w)) = some S)
    (hid : S.id.isSome = true) :
    ({ S with windowId := none } ∈ (handleWindowRemoved st w markAsClosed).2.sessions)
    ∧ (∀ t ∈ (handleWindowRemoved st w markAsClosed).2.sessions,
        t.key = S.key → t = { S with windowId := none })
    ∧ ({ S with windowId := none } ∈ (handleWindowRemoved st w markAsClosed).2.writes) := by
  obtain ⟨st1, hsess, hwrites, _, heq⟩ :=
    handleWindowRemoved_durable_state st w markAsClosed S hclosed hfind hid
  rw [heq]
  rw [updateSessionSync_of_isSome _ _ (by simpa using hid)]
  have hK : ∀ u ∈ st1.sessions.map
      (fun s => if s.key = S.key then { S with windowId := none } else s),
      u.key = ({ S with windowId := none } : Sess).key →
      u = { S with windowId := none } := by
    intro u hu huk
    rcases List.mem_map.mp hu with ⟨x, hx, rfl⟩
    by_cases hxk : x.key = S.key
    · rw [if_pos hxk]
    · exfalso
      rw [if_neg hxk] at huk
      exact hxk huk
  refine ⟨?_, ?_, ?_⟩
  · apply patchFirstById_mem_self
    refine List.mem_map.mpr ⟨S, ?_, ?_⟩
    · rw [hsess]
      exact List.mem_of_find?_eq_some hfind
    · rw [if_pos rfl]
  · intro t ht htk
    exact patchFirstById_key_unique _ _ hK t ht htk
  · exact List.mem_append.mpr (Or.inr (List.mem_singleton.mpr rfl))

/-- C6: two window-removed events for the same window W bound to a
durable session S, delivered in succession with `mark_closed = true`:
the first call clears S's `window_id` in the registry and issues exactly
one store update (the write log grows by exactly the cleared row), W
lands in the closed set, and the second call is a pure no-op returning
true with the state unchanged. -/
theorem handleWindowRemoved_duplicate_close (st : EngineState) (w : Nat) (S : Sess)
    (hclosed : st.closedWindowIds.contains w = false)
    (hfind : st.sessions.find? (fun s => decide (s.windowId = some w)) = some S)
    (hid : S.id.isSome = true) :
    ((handleWindowRemoved st w true).2.writes
        = st.writes ++ [{ S with windowId := none }])
    ∧ ((handleWindowRemoved st w true).2.closedWindowIds = w :: st.closedWindowIds)
    ∧ (∀ t ∈ (handleWindowRemoved st w true).2.sessions,
        t.key = S.key → t = { S with windowId := none })
    ∧ (handleWindowRemoved (handleWindowRemoved st w true).2 w true
        = (true, (handleWindowRemoved st w true).2)) := by
  obtain ⟨st1, hsess, hwrites, hcl, heq⟩ :=
    handleWindowRemoved_durable_state st w true S hclosed hfind hid
  rw [if_pos rfl] at hcl
  have hK : ∀ u ∈ st1.sessions.map
      (fun s => if s.key = S.key then { S with windowId := none } else s),
      u.key = ({ S with windowId := none } : Sess).key →
      u = { S with windowId := none } := by
    intro u hu huk
    rcases List.mem_map.mp hu with ⟨x, hx, rfl⟩
    by_cases hxk : x.key = S.key
    · rw [if_pos hxk]
    · exfalso
      rw [if_neg hxk] at huk
      exact hxk huk
  rw [heq]
  rw [updateSessionSync_of_isSome _ _ (by simpa using hid)]
  refine ⟨?_, ?_, ?_, ?_⟩
  · show st1.writes ++ [{ S with windowId := none }]
        = st.writes ++ [{ S with windowId := none }]
    rw [hwrites]
  · exact hcl
  · intro t ht htk
    exact patchFirstById_key_unique _ _ hK t ht htk
  · unfold handleWindowRemoved
    rw [if_pos ?_]
    show st1.closedWindowIds.contains w = true
    rw [hcl]
    simp

/-- A durable session bound to window 4, with saved bounds, for the
window-removal witnesses. -/
def c6S : Sess :=
  { key := 0, id := some 1, name := some (strCodes "work"), windowId := some 4,
    sessionHash := 0, tabs := [⟨strCodes "https://a.com"⟩], history := [],
    lastAccess := 5, windowBounds := some ⟨10, 20, 300, 400⟩ }

/-- Engine state for the window-removal witnesses. -/
def c6State : EngineState :=
  { sessions := [c6S], db := [c6S], writes := [], closedWindowIds := [],
    sessionUpdateTimers := [4], boundsUpdateTimers := [4], nextId := 2, nextKey := 1 }

/-- Closed-form witness for `handleWindowRemoved_preserves_fields`: after
removing window 4, the registry holds `c6S` unchanged except for the
cleared `windowId` — its `windowBounds` survive. -/
theorem handleWindowRemoved_preserves_fields_witness :
    c6State.closedWindowIds.contains 4 = false
    ∧ c6State.sessions.find? (fun s => decide (s.windowId = some 4)) = some c6S
    ∧ c6S.id.isSome = true
    ∧ { c6S with windowId := none } ∈ (handleWindowRemoved c6State 4 false).2.sessions :=
  ⟨by decide, by decide, by decide,
   (handleWindowRemoved_preserves_fields c6State 4 false c6S
      (by decide) (by decide) (by decide)).1⟩

/-- Closed-form witness for `handleWindowRemoved_duplicate_close` at the
concrete state: one write is logged and the second event is a no-op. -/
theorem handleWindowRemoved_duplicate_close_witness :
    c6State.closedWindowIds.contains 4 = false
    ∧ ((handleWindowRemoved c6State 4 true).2.writes
        = [{ c6S with windowId := none }])
    ∧ (handleWindowRemoved (handleWindowRemoved c6State 4 true).2 4 true
        = (true, (handleWindowRemoved c6State 4 true).2)) :=
  ⟨by decide,
   (handleWindowRemoved_duplicate_close c6State 4 c6S
      (by decide) (by decide) (by decide)).1,
   (handleWindowRemoved_duplicate_close c6State 4 c6S
      (by decide) (by decide) (by decide)).2.2.2⟩

/-- The store removal `dbService.removeSession`: the underlying `db.js`
`remove` deletes the row with the given key (and resolves whether or not
such a row existed), after which the method returns true; an underlying
I/O failure is caught and surfaced as false.  The failure is injected
through the `ioFail` oracle. -/
def removeSession (db : List Sess) (id : Nat) (ioFail : Bool) : Bool × List Sess :=
  if ioFail then (false, db)
  else (true, db.filter (fun t => decide (t.id ≠ some id)))

/-- The `deleteSession` method of `spacesService.js` (lines 1104-1122):
the cached entry (first id match) is spliced only when the store removal
reports success; otherwise — including when the removal throws — the
method returns false and the cache is untouched. -/
def deleteSession (st : EngineState) (sessionId : Nat) (ioFail : Bool) :
    Bool × EngineState :=
  let success := removeSession st.db sessionId ioFail
  if success.1 then
    (true, { st with
              db := success.2,
              sessions := st.sessions.eraseP
                (fun s => decide (s.id = some sessionId)) })
  else (false, { st with db := success.2 })

/-- C10: `deleteSession` is atomic with respect to the registry: when the
store removal fails it returns false with the whole state — the
in-memory session list included — unchanged, and only when the removal
reports success does it splice the (first) entry with the deleted id out
of the registry and return true. -/
theorem deleteSession_atomic (st : EngineState) (sessionId : Nat) :
    (deleteSession st sessionId true = (false, st))
    ∧ ((deleteSession st sessionId false).1 = true)
    ∧ ((deleteSession st sessionId false).2.sessions
        = st.sessions.eraseP (fun s => decide (s.id = some sessionId)))
    ∧ ((deleteSession st sessionId false).2.db
        = st.db.filter (fun t => decide (t.id ≠ some sessionId))) :=
  ⟨rfl, rfl, rfl, rfl⟩

/-- The `spaceDateCompare` comparator of `background.js`: open sessions
(truthy windowId) order before closed ones, then later `lastAccess`
orders first. -/
def spaceDateCompare (a b : Sess) : Int :=
  -- order open sessions first
  if a.windowId.isSome && !b.windowId.isSome then -1
  else if !a.windowId.isSome && b.windowId.isSome then 1
  -- then order by last access date
  else if b.lastAccess < a.lastAccess then -1
  else if a.lastAccess < b.lastAccess then 1
  else 0

/-- The total preorder induced by `spaceDateCompare`: "a sorts no later
than b".  `Array.prototype.sort` with a consistent comparator returns a
list sorted by this relation; the model renders the sort with insertion
sort, whose output is sorted for it. -/
def spaceLe (a b : Sess) : Prop := spaceDateCompare a b ≤ 0

instance spaceLe.instDecidableRel : DecidableRel spaceLe := by
  intro a b
  unfold spaceLe
  infer_instance

theorem spaceLe_iff (a b : Sess) :
    spaceLe a b ↔ ((a.windowId.isSome = true ∧ b.windowId.isSome = false)
      ∨ (a.windowId.isSome = b.windowId.isSome ∧ b.lastAccess ≤ a.lastAccess)) := by
  unfold spaceLe spaceDateCompare
  cases ha : a.windowId.isSome <;> cases hb : b.windowId.isSome <;>
    simp [ha, hb] <;> split_ifs <;> omega

instance spaceLe.instIsTotal : IsTotal Sess spaceLe := by
  refine ⟨fun a b => ?_⟩
  rw [spaceLe_iff, spaceLe_iff]
  cases ha : a.windowId.isSome <;> cases hb : b.windowId.isSome <;>
    simp [ha, hb] <;> omega

instance spaceLe.instIsTrans : IsTrans Sess spaceLe := by
  refine ⟨fun a b c hab hbc => ?_⟩
  rw [spaceLe_iff] at hab hbc ⊢
  cases ha : a.windowId.isSome <;> cases hb : b.windowId.isSome <;>
      cases hc : c.windowId.isSome <;>
    simp [ha, hb, hc] at hab hbc ⊢ <;> omega

/-- The `requestAllSpaces` handler of `background.js` (lines 806-838):
fetch all rows, reshape each with its `sessionId` (the identity in this
model, where the id is already a field of the record), drop sessions
without tabs, and sort with `spaceDateCompare`. -/
def requestAllSpaces (db : List Sess) : List Sess :=
  List.insertionSort spaceLe (db.filter (fun session => decide (session.tabs ≠ [])))

/-- C8: `requestAllSpaces` returns exactly the stored sessions having at
least one tab (the result is a permutation of that filtering), ordered so
that every open session (present windowId) precedes every closed one and
that, within each of the two groups, `lastAccess` is descending. -/
theorem requestAllSpaces_sorted (db : List Sess) :
    ((requestAllSpaces db).Perm
        (db.filter (fun session => decide (session.tabs ≠ []))))
    ∧ ((requestAllSpaces db).Pairwise (fun a b =>
        (b.windowId.isSome = true → a.windowId.isSome = true)
        ∧ (a.windowId.isSome = b.windowId.isSome →
            b.lastAccess ≤ a.lastAccess))) := by
  constructor
  · exact List.perm_insertionSort spaceLe _
  · have hs : List.Sorted spaceLe (requestAllSpaces db) :=
      List.sorted_insertionSort spaceLe _
    refine hs.imp ?_
    intro a b hab
    rw [spaceLe_iff] at hab
    constructor
    · intro hbopen
      rcases hab with ⟨ha, _⟩ | ⟨heq, _⟩
      · exact ha
      · rw [heq]
        exact hbopen
    · intro heq
      rcases hab with ⟨ha, hb⟩ | ⟨_, hle⟩
      · rw [ha, hb] at heq
        cases heq
      · exact hle

/-- JavaScript `toLowerCase`, restricted to the ASCII letters (every
session name appearing in the repository's scenarios is ASCII). -/
def toLowerCode (c : Nat) : Nat := if 65 ≤ c ∧ c ≤ 90 then c + 32 else c

/-- `dbService.fetchSessionByName`: scan of all rows for the first whose
name matches case-insensitively (a row without a name never matches,
from the optional chaining on `session.name`). -/
def fetchSessionByName (db : List Sess) (sessionName : JsStr) : Option Sess :=
  db.find? (fun session =>
    match session.name with
    | some n => decide (n.map toLowerCode = sessionName.map toLowerCode)
    | none => false)

/-- `dbService.fetchSessionById`: the row carrying the given id. -/
def fetchSessionById (db : List Sess) (id : Nat) : Option Sess :=
  db.find? (fun session => decide (session.id = some id))

/-- `spacesService.updateSessionName` (lines 923-928): fetch the row by
id, set its name and persist it through
`saveExistingSession`/`_updateSessionSync`.  A missing row makes the
source throw on the property assignment; here it yields a null result
with the state unchanged. -/
def updateSessionName (st : EngineState) (sessionId : Nat) (sessionName : JsStr) :
    Option Sess × EngineState :=
  match fetchSessionById st.db sessionId with
  | none => (none, st)
  | some session => updateSessionSync st { session with name := some sessionName }

/-- The `handleDeleteSession` handler of `background.js`: verify the
session exists, then delete it via `spacesService.deleteSession` (store
removal assumed to succeed here). -/
def handleDeleteSession (st : EngineState) (sessionId : Nat) : EngineState :=
  match fetchSessionById st.db sessionId with
  | none => st
  | some _ => (deleteSession st sessionId false).2

/-- The `handleUpdateSessionName` handler of `background.js`
(src/unnamed/part_004 lines 1007-1025): look the new name up
case-insensitively; ANY hit — the session being renamed included, since
no id comparison is made — aborts with a false result when `deleteOld`
is unset, and is deleted before the rename otherwise. -/
def handleUpdateSessionName (st : EngineState) (sessionId : Nat)
    (sessionName : JsStr) (deleteOld : Bool) : Option Sess × EngineState :=
  match fetchSessionByName st.db sessionName with
  | some existingSession =>
    if !deleteOld then (none, st)
    else
      -- if we choose to override, then delete the existing session
      let st1 := match existingSession.id with
        | some eid => handleDeleteSession st eid
        | none => st
      updateSessionName st1 sessionId sessionName
  | none => updateSessionName st sessionId sessionName

/-- The durable session "name" with id 123, the subject of the
capitalization-only rename. -/
def c5S : Sess :=
  { key := 0, id := some 123, name := some (strCodes "name"), windowId := none,
    sessionHash := 0, tabs := [⟨strCodes "https://a.com"⟩], history := [],
    lastAccess := 0, windowBounds := none }

/-- Engine state holding only the session to be renamed. -/
def c5State : EngineState :=
  { sessions := [c5S], db := [c5S], writes := [], closedWindowIds := [],
    sessionUpdateTimers := [], boundsUpdateTimers := [], nextId := 124, nextKey := 1 }

/-- C5 (code bug): renaming session 123 from "name" to "Name" with
delete_old unset fails: the case-insensitive lookup hits the session
itself, and `handleUpdateSessionName` rejects on any hit without
comparing ids, returning false and leaving everything unchanged — the
claim (and the repository's test "updates name if conflict exists but
IDs match") requires this rename to succeed.  With delete_old set the
handler even deletes the session itself before attempting the rename,
leaving the store empty. -/
theorem handleUpdateSessionName_same_id_fails :
    (fetchSessionByName c5State.db (strCodes "Name") = some c5S
      ∧ c5S.id = some 123)
    ∧ handleUpdateSessionName c5State 123 (strCodes "Name") false = (none, c5State)
    ∧ (handleUpdateSessionName c5State 123 (strCodes "Name") true).2.db = [] := by
  refine ⟨⟨by decide, by decide⟩, by decide, by decide⟩
